import Mathlib

/-!
# kube-log-tail: reconciliation, tailing and colour rotation

A shallow embedding of the Go package `kubelogtail` (files `color.go`,
`podtail.go`, `kubelogtail.go`, `k8s.go`) together with theorems about it.

Conventions of the embedding.

* A Go `string` is a Lean `String`; the bytes of a log stream are a
  `List Char`, one `Char` per byte.
* A Go `error` is a value of `Error`; `nil` is `none` of `Option Error`.
* A Go `map[string]T` is an association list with pairwise distinct keys.
  Go iterates a map in an unspecified order; the embedding iterates in list
  order, and the theorems below speak about sets of keys only.
* Closures are defunctionalised: a `colorFunc` is the code of the closure
  together with the variables it captured.
* What the program writes to standard output is a `Console`, the list of the
  chunks written so far.
-/

namespace Kubelogtail

/-! ## Errors (`github.com/pkg/errors`) -/

/-- An error value: either a root error carrying a message, or an error
produced by `errors.Wrapf(cause, msg)`. -/
inductive Error where
  | errorf (msg : String) : Error
  | wrapf (cause : Error) (msg : String) : Error
  deriving DecidableEq, Repr

namespace Error

/-- The text of an error: a wrapped error prints as `msg: cause`. -/
def text : Error → String
  | errorf msg => msg
  | wrapf cause msg => msg ++ ": " ++ text cause

/-- The root cause of an error (`errors.Cause`). -/
def cause : Error → Error
  | errorf msg => errorf msg
  | wrapf c _ => cause c

end Error

/-! ## color.go -/

/-- The colour printers of `github.com/fatih/color` that `generateColors`
puts in its palette (`fmtPrinter` values). -/
inductive fmtPrinter where
  | BlueString
  | CyanString
  | YellowString
  | RedString
  | MagentaString
  deriving DecidableEq, Repr

/-- One chunk written to standard output: plain text, or the string returned
by a colour printer `f(format, args...)`, kept symbolically. -/
inductive Chunk where
  | plain (s : String) : Chunk
  | colored (f : fmtPrinter) (format : String) (args : List String) : Chunk
  deriving DecidableEq, Repr

/-- Everything written to standard output so far, oldest first. -/
abbrev Console := List Chunk

/-- The effect of `fmt.Println(a, b)`: the operands separated by a space,
followed by a newline. -/
def Println (a b : Chunk) (out : Console) : Console :=
  out ++ [a, Chunk.plain " ", b, Chunk.plain "\n"]

/-- The effect of `fmt.Println(err)` for one operand. -/
def Println1 (a : Chunk) (out : Console) : Console :=
  out ++ [a, Chunk.plain "\n"]

def logColorLine : Nat := 0
def logColorPod : Nat := 1
def logColorOff : Nat := 2

/-- The closures built by `generateColors`, with their captured printer:
`off` is the closure of mode off, `pod f` the closure of mode pod and
`line f` the closure of the remaining mode. -/
inductive colorFunc where
  | off : colorFunc
  | pod (f : fmtPrinter) : colorFunc
  | line (f : fmtPrinter) : colorFunc
  deriving DecidableEq, Repr

/-- Calling a `colorFunc` with `(label, line)`.
* `off`: `fmt.Println(label, line)`;
* `pod f`: `fmt.Println(f(label), line)`;
* `line f`: `f("%s %s\n", label, line)`, whose result is not used. -/
def colorFunc.call (cf : colorFunc) (label line : String) (out : Console) : Console :=
  match cf with
  | colorFunc.off => Println (Chunk.plain label) (Chunk.plain line) out
  | colorFunc.pod f => Println (Chunk.colored f label []) (Chunk.plain line) out
  | colorFunc.line f =>
    let _unused := Chunk.colored f "%s %s\n" [label, line]
    out

/-- The struct `logColorPrint` (the mutex is not represented: every method
body runs atomically). -/
structure logColorPrint where
  colorFuncs : List colorFunc
  currentColor : Nat
  mode : Nat
  deriving DecidableEq, Repr

/-- The slice literal `colors` of `generateColors`. -/
def colors : List fmtPrinter :=
  [fmtPrinter.BlueString, fmtPrinter.CyanString, fmtPrinter.YellowString,
   fmtPrinter.RedString, fmtPrinter.MagentaString]

/-- The method `generateColors`. -/
def generateColors (l : logColorPrint) : logColorPrint :=
  if l.mode = logColorOff then
    { l with colorFuncs := [colorFunc.off] }
  else
    colors.foldl
      (fun l f =>
        let cf := if l.mode = logColorPod then colorFunc.pod f else colorFunc.line f
        { l with colorFuncs := l.colorFuncs ++ [cf] })
      l

/-- The function `newLogColorPrint`. -/
def newLogColorPrint (mode : String) : Except Error logColorPrint :=
  let m : Option Nat :=
    if mode = "off" then some logColorOff
    else if mode = "pod" then some logColorPod
    else if mode = "line" ∨ mode = "" then some logColorLine
    else none
  match m with
  | none => Except.error (Error.errorf ("unknown color print mode: \"" ++ mode ++ "\""))
  | some m => Except.ok (generateColors { colorFuncs := [], currentColor := 0, mode := m })

/-- The method `getColor`: the cursor is advanced, wraps to zero, and the
palette entry under it is returned; `none` stands for the run-time panic of an
index out of range. -/
def getColor (l : logColorPrint) : logColorPrint × Option colorFunc :=
  let cur := l.currentColor + 1
  let cur := if cur ≥ l.colorFuncs.length then 0 else cur
  ({ l with currentColor := cur }, l.colorFuncs[cur]?)

/-- The assigner after `n` calls of `getColor`. -/
def afterCalls (l : logColorPrint) : Nat → logColorPrint
  | 0 => l
  | n + 1 => (getColor (afterCalls l n)).1

/-- What the `n`-th call of `getColor` returns, counting from one (the value
for `n = 0` is unused). -/
def nthColor (l : logColorPrint) (n : Nat) : Option colorFunc :=
  (getColor (afterCalls l (n - 1))).2

/-! ## Cancellation scopes (`context`) -/

/-- A `context.Context`: the background context, or the context returned by
`context.WithCancel(parent)`; `id` names its cancel function. -/
inductive Context where
  | background : Context
  | withCancel (id : Nat) (parent : Context) : Context
  deriving DecidableEq, Repr

/-- Whether a context is done, given the cancel functions called so far: its
own cancel function or that of one of its ancestors has been called. -/
def Context.done (cancelled : List Nat) : Context → Bool
  | Context.background => false
  | Context.withCancel id parent => decide (id ∈ cancelled) || Context.done cancelled parent

/-! ## Go maps -/

/-- The map read `m[key]` with its `ok` flag. -/
def mapGet {α : Type} (m : List (String × α)) (key : String) : Option α :=
  match m with
  | [] => none
  | (k, v) :: rest => if k = key then some v else mapGet rest key

/-- The map write `m[key] = v`. -/
def mapSet {α : Type} (m : List (String × α)) (key : String) (v : α) : List (String × α) :=
  match m with
  | [] => [(key, v)]
  | (k, v') :: rest => if k = key then (key, v) :: rest else (k, v') :: mapSet rest key v

/-- The keys of a map. -/
def mapKeys {α : Type} (m : List (String × α)) : List String :=
  m.map Prod.fst

/-! ## podtail.go -/

/-- The fields of `v1.Pod` the program reads: `GetNamespace()`, `GetName()`
and the names of `Spec.Containers`. -/
structure Pod where
  namespace_ : String
  name : String
  containers : List String
  deriving DecidableEq, Repr

/-- The struct `podTail`; `cancel` names the cancel function of `ctx`. The
REST client is outside the embedding, and `colorFuncGet` is the `getColor`
method of the assigner shared by the whole run, which is passed explicitly. -/
structure podTail where
  ctx : Context
  cancel : Nat
  namespace_ : String
  name : String
  containers : List String
  deriving DecidableEq, Repr

/-- The part of the run-time state that lives outside the structs. -/
structure World where
  /-- The cancel functions called so far, in call order. -/
  cancelled : List Nat
  /-- The next unused context identifier. -/
  nextCtx : Nat
  /-- The pod tails for which `processPods` started a goroutine running
  `t.tail()`, in start order. -/
  launched : List podTail
  /-- Standard output. -/
  out : Console
  deriving DecidableEq, Repr

/-- The state before anything ran. -/
def World.init : World :=
  { cancelled := [], nextCtx := 0, launched := [], out := [] }

/-- The struct `KubeLogTail`; the clientset is outside the embedding. -/
structure KubeLogTail where
  kubeconfig : String
  ctx : Context
  cancel : Nat
  refreshTime : Nat
  namespace_ : String
  selector : String
  pods : List (String × podTail)
  colorMode : String
  color : logColorPrint
  deriving DecidableEq, Repr

/-- The method `newPodTail`: the new tail gets a context derived from `k.ctx`
and the container names of the pod. -/
def newPodTail (k : KubeLogTail) (pod : Pod) (w : World) : podTail × World :=
  let p : podTail :=
    { ctx := Context.withCancel w.nextCtx k.ctx
      cancel := w.nextCtx
      namespace_ := pod.namespace_
      name := pod.name
      containers := pod.containers.foldl (fun cs c => cs ++ [c]) [] }
  (p, { w with nextCtx := w.nextCtx + 1 })

/-- The method `podTail.stop`: calls `p.cancel()`. -/
def podTail.stop (p : podTail) (w : World) : World :=
  { w with cancelled := w.cancelled ++ [p.cancel] }

/-- What one container goroutine of `tail` does: `ret` is the value its call
of `tailContainer` returns, and `early` tells whether the goroutine has already
stored that value in `err` when the loop body of `tail` evaluates
`if err != nil` right after the `go` statement. -/
structure Outcome where
  ret : Option Error
  early : Bool
  deriving DecidableEq, Repr

/-- What a call of `tail` did: the containers for which a goroutine was
started, whether `wg.Wait()` was reached (so that `tail` returned only after
all of them completed), and the returned error. -/
structure TailRun where
  started : List String
  waited : Bool
  ret : Option Error
  deriving DecidableEq, Repr

/-- The loop of `tail` from position `i` of the container list on. -/
def tailLoop (p : podTail) (sched : Nat → Outcome) : List String → Nat → List String → TailRun
  | [], _, started => { started := started, waited := true, ret := none }
  | c :: cs, i, started =>
    let err : Option Error := if (sched i).early then (sched i).ret else none
    match err with
    | some e =>
      { started := started ++ [c]
        waited := false
        ret := some (Error.wrapf e
          ("failed tailing logs for pod " ++ p.namespace_ ++ "/" ++ p.name)) }
    | none => tailLoop p sched cs (i + 1) (started ++ [c])

/-- The method `podTail.tail`; `sched i` describes the goroutine of the
container at position `i`. -/
def tail (p : podTail) (sched : Nat → Outcome) : TailRun :=
  tailLoop p sched p.containers 0 []

/-- The value of `bufio.MaxScanTokenSize`, the buffer limit of a scanner made
by `bufio.NewScanner`. -/
def MaxScanTokenSize : Nat := 64 * 1024

/-- The error `bufio.ErrTooLong`. -/
def ErrTooLong : Error := Error.errorf "bufio.Scanner: token too long"

/-- The error `context.Canceled`. -/
def Canceled : Error := Error.errorf "context canceled"

/-- The helper `dropCR` of `bufio.ScanLines`: one trailing carriage return is
dropped. -/
def dropCR (data : List Char) : List Char :=
  if data.getLast? = some '\r' then data.dropLast else data

/-- The tokens a `bufio.Scanner` with split function `ScanLines` and buffer
limit `maxTokenSize` delivers for the bytes `data` (read after the pending
bytes `cur` of the current line), and the value of `scanner.Err()` once `Scan`
returned false. `final` is the error that ended the reads, `none` for
`io.EOF`. A line is delivered when its newline fits in the buffer; a buffer
full of bytes without a newline ends the scan with `ErrTooLong`; at the end of
the data the pending bytes, if any, are delivered as a last token. -/
def scanLines (maxTokenSize : Nat) (final : Option Error) :
    List Char → List Char → List String × Option Error
  | cur, [] => (if cur = [] then [] else [String.mk (dropCR cur)], final)
  | cur, b :: rest =>
    if b = '\n' then
      let r := scanLines maxTokenSize final [] rest
      (String.mk (dropCR cur) :: r.1, r.2)
    else if maxTokenSize ≤ cur.length + 1 then
      ([], some ErrTooLong)
    else
      scanLines maxTokenSize final (cur ++ [b]) rest

/-- A log stream as `tailContainer` reads it: the bytes delivered, and the
error of the read that ended it (`none` for `io.EOF`). -/
structure Stream where
  data : List Char
  err : Option Error
  deriving DecidableEq, Repr

/-- The stream of a request whose context is cancelled after `delivered` was
read: the request is bound to `p.ctx`, and the pending read fails with the
error of the context. -/
def cancelledStream (delivered : List Char) : Stream :=
  { data := delivered, err := some Canceled }

/-- What a call of `tailContainer` did: the assigner and standard output
afterwards, the arguments of the calls of `printer` in order, whether the
deferred `readCloser.Close()` ran, and the returned error. -/
structure ContainerRun where
  color : logColorPrint
  out : Console
  calls : List (String × String)
  closed : Bool
  ret : Option Error
  deriving DecidableEq, Repr

/-- The method `podTail.tailContainer`; `stream` is the result of
`req.Stream()`. The result `none` stands for the panic of `getColor`. -/
def tailContainer (p : podTail) (name : String) (stream : Except Error Stream)
    (l : logColorPrint) (out : Console) : Option ContainerRun :=
  let label := p.namespace_ ++ "/" ++ p.name ++ "/" ++ name
  match getColor l with
  | (_, none) => none
  | (l', some printer) =>
    match stream with
    | Except.error err =>
      some { color := l', out := out, calls := [], closed := false,
             ret := some (Error.wrapf err ("unable to stream logs for " ++ label)) }
    | Except.ok readCloser =>
      let sc := scanLines MaxScanTokenSize readCloser.err [] readCloser.data
      let out' := sc.1.foldl (fun o t => printer.call label t o) out
      let calls := sc.1.map (fun t => (label, t))
      match sc.2 with
      | some err =>
        some { color := l', out := out', calls := calls, closed := true,
               ret := some (Error.wrapf err ("error scanning for lines for " ++ label)) }
      | none =>
        some { color := l', out := out', calls := calls, closed := true, ret := none }

/-! ## k8s.go and kubelogtail.go -/

/-- The function `getPods`; `listing` is the result of the `List` call of the
client. -/
def getPods (listing : Except Error (List Pod)) : Except Error (List Pod) :=
  match listing with
  | Except.error err => Except.error (Error.wrapf err "Failed to list pods")
  | Except.ok pods => Except.ok pods

/-- The key of a pod, `fmt.Sprintf("%s/%s", p.GetNamespace(), p.GetName())`. -/
def podKey (p : Pod) : String :=
  p.namespace_ ++ "/" ++ p.name

/-- The map `foundPods` of `processPods`. -/
def foundPods (pods : List Pod) : List (String × Pod) :=
  pods.foldl (fun m p => mapSet m (podKey p) p) []

/-- The body of the loop `start new pods` for one entry of `foundPods`. -/
def startPod (kw : KubeLogTail × World) (entry : String × Pod) : KubeLogTail × World :=
  match mapGet kw.1.pods entry.1 with
  | some _ => kw
  | none =>
    let tw := newPodTail kw.1 entry.2 kw.2
    ({ kw.1 with pods := mapSet kw.1.pods entry.1 tw.1 },
     { tw.2 with launched := tw.2.launched ++ [tw.1] })

/-- The body of the loop `stop old ones` for one key of `oldPods`. -/
def stopPod (found : List (String × Pod)) (k : KubeLogTail) (w : World)
    (entry : String × Bool) : World :=
  match mapGet found entry.1 with
  | some _ => w
  | none =>
    match mapGet k.pods entry.1 with
    | none => w
    | some t => t.stop w

/-- The method `processPods`; `listing` is the result of the `List` call. -/
def processPods (listing : Except Error (List Pod)) (k : KubeLogTail) (w : World) :
    KubeLogTail × World × Option Error :=
  match getPods listing with
  | Except.error err => (k, w, some (Error.wrapf err "failed to list pods"))
  | Except.ok pods =>
    let oldPods : List (String × Bool) :=
      k.pods.foldl (fun m kv => mapSet m kv.1 true) []
    let found := foundPods pods
    let kw := found.foldl startPod (k, w)
    let w' := oldPods.foldl (stopPod found kw.1) kw.2
    (kw.1, w', none)

/-- The method `Stop`: calls `k.cancel()`. -/
def Stop (k : KubeLogTail) (w : World) : World :=
  { w with cancelled := w.cancelled ++ [k.cancel] }

/-- What the `select` of `Run` meets: the ticker fires and `processPods` gets
`listing` from the client; another goroutine calls `Stop`; the case
`<-k.ctx.Done()` is taken (possible only when the context is done). -/
inductive Event where
  | tick (listing : Except Error (List Pod)) : Event
  | stop : Event
  | done : Event
  deriving Repr

/-- The outcome of `Run` over a finite run of events: still in its loop, or
returned with an error value. -/
inductive RunResult where
  | running : RunResult
  | returned (err : Option Error) : RunResult
  deriving DecidableEq, Repr

/-- The loop `LOOP` of `Run`. -/
def runLoop : List Event → KubeLogTail → World → KubeLogTail × World × RunResult
  | [], k, w => (k, w, RunResult.running)
  | Event.tick listing :: es, k, w =>
    match processPods listing k w with
    | (k', w', some err) =>
      let msg := Chunk.plain (Error.wrapf err "failed to process pods for logs").text
      runLoop es k' { w' with out := Println1 msg w'.out }
    | (k', w', none) => runLoop es k' w'
  | Event.stop :: es, k, w => runLoop es k (Stop k w)
  | Event.done :: es, k, w =>
    if k.ctx.done w.cancelled then (k, w, RunResult.returned none) else runLoop es k w

/-- The method `Run`; `first` is the listing the first `processPods` gets. -/
def Run (first : Except Error (List Pod)) (events : List Event) (k : KubeLogTail)
    (w : World) : KubeLogTail × World × RunResult :=
  match processPods first k w with
  | (k', w', some err) =>
    (k', w', RunResult.returned (some (Error.wrapf err "failed to process pods for logs")))
  | (k', w', none) => runLoop events k' w'

/-- An `OptionsFunc`. -/
abbrev OptionsFunc := KubeLogTail → Except Error KubeLogTail

def SetKubeConfig (kubeconfig : String) : OptionsFunc :=
  fun k => Except.ok { k with kubeconfig := kubeconfig }

def SetRefreshTime (duration : Nat) : OptionsFunc :=
  fun k => Except.ok { k with refreshTime := duration }

def SetNamespace (ns : String) : OptionsFunc :=
  fun k => Except.ok { k with namespace_ := ns }

/-- The option `SetLabelSelector`; `parse` stands for `labels.Parse` followed
by `String()`. -/
def SetLabelSelector (parse : String → Except Error String) (query : String) : OptionsFunc :=
  fun k =>
    match parse query with
    | Except.error err =>
      Except.error (Error.wrapf err ("failed to parse label selector: \"" ++ query ++ "\""))
    | Except.ok l => Except.ok { k with selector := l }

def SetColorMode (mode : String) : OptionsFunc :=
  fun k => Except.ok { k with colorMode := mode }

/-- The loop of `New` over the options. -/
def applyOptions : List OptionsFunc → KubeLogTail → Except Error KubeLogTail
  | [], k => Except.ok k
  | f :: fs, k =>
    match f k with
    | Except.error err => Except.error (Error.wrapf err "failed to process options")
    | Except.ok k' => applyOptions fs k'

/-- The function `New`; `client` is the result of `kubeClient`. The field
`color` holds an empty assigner until `newLogColorPrint` fills it. -/
def New (options : List OptionsFunc) (client : Except Error Unit) (w : World) :
    Except Error (KubeLogTail × World) :=
  let k : KubeLogTail :=
    { kubeconfig := ""
      ctx := Context.withCancel w.nextCtx Context.background
      cancel := w.nextCtx
      refreshTime := 10
      namespace_ := "default"
      selector := ""
      pods := []
      colorMode := "pod"
      color := { colorFuncs := [], currentColor := 0, mode := 0 } }
  let w' := { w with nextCtx := w.nextCtx + 1 }
  match applyOptions options k with
  | Except.error err => Except.error err
  | Except.ok k =>
    match client with
    | Except.error err =>
      Except.error (Error.wrapf err ("failed to create kubernetes client from " ++ k.kubeconfig))
    | Except.ok _ =>
      match newLogColorPrint k.colorMode with
      | Except.error err => Except.error (Error.wrapf err "failed to create color functions")
      | Except.ok c => Except.ok ({ k with color := c }, w')

/-- The options a caller of the package can build, one constructor for each
exported function that returns an `OptionsFunc`; `parse` of `labelSelector` is
the result of `labels.Parse(query)` followed by `String()`. -/
inductive Setting where
  | kubeConfig (kubeconfig : String) : Setting
  | refreshTime (duration : Nat) : Setting
  | namespace_ (ns : String) : Setting
  | labelSelector (parse : String → Except Error String) (query : String) : Setting
  | colorMode (mode : String) : Setting

/-- The `OptionsFunc` of a setting. -/
def Setting.toFunc : Setting → OptionsFunc
  | Setting.kubeConfig kubeconfig => SetKubeConfig kubeconfig
  | Setting.refreshTime duration => SetRefreshTime duration
  | Setting.namespace_ ns => SetNamespace ns
  | Setting.labelSelector parse query => SetLabelSelector parse query
  | Setting.colorMode mode => SetColorMode mode

/-- The states the reconciler reaches: the state `New` returns, and from a
reached state the state after a `processPods` with any listing and the state
after a call of `Stop`. -/
inductive Reachable : KubeLogTail → World → Prop where
  | new (settings : List Setting) (client : Except Error Unit) (k : KubeLogTail) (w : World) :
      New (settings.map Setting.toFunc) client World.init = Except.ok (k, w) → Reachable k w
  | tick (listing : Except Error (List Pod)) (k : KubeLogTail) (w : World) :
      Reachable k w → Reachable (processPods listing k w).1 (processPods listing k w).2.1
  | stop (k : KubeLogTail) (w : World) : Reachable k w → Reachable k (Stop k w)

/-- The shape of the scopes of a state: the scope of the reconciler derives
from the background context, the scope of every tracked pod tail derives from
the scope of the reconciler, and the cancel functions are pairwise different
and were all handed out already. -/
def ScopesOk (k : KubeLogTail) (w : World) : Prop :=
  k.ctx = Context.withCancel k.cancel Context.background ∧
  k.cancel < w.nextCtx ∧
  (∀ kv ∈ k.pods, kv.2.ctx = Context.withCancel kv.2.cancel k.ctx ∧
    kv.2.cancel < w.nextCtx ∧ kv.2.cancel ≠ k.cancel) ∧
  (k.pods.map (fun kv => kv.2.cancel)).Nodup

/-! ## Values used by the worked examples -/

/-- The key of a pod tail, from the namespace and name it was built with. -/
def podTail.key (t : podTail) : String :=
  t.namespace_ ++ "/" ++ t.name

/-- The keys of the pod tails a step started, when it took the world from `w`
to `w'`. -/
def startedKeys (w w' : World) : List String :=
  (w'.launched.drop w.launched.length).map podTail.key

/-- The cancel functions a step called, when it took the world from `w` to
`w'`. -/
def cancelCalls (w w' : World) : List Nat :=
  w'.cancelled.drop w.cancelled.length

/-- The state after a run of ticks whose listings all succeed. -/
def ticks : List (List Pod) → KubeLogTail × World → KubeLogTail × World
  | [], kw => kw
  | pods :: rest, kw =>
    ticks rest ((processPods (Except.ok pods) kw.1 kw.2).1,
                (processPods (Except.ok pods) kw.1 kw.2).2.1)

/-- The state `New` returns for no options and a working client. -/
def fresh : KubeLogTail × World :=
  ({ kubeconfig := ""
     ctx := Context.withCancel 0 Context.background
     cancel := 0
     refreshTime := 10
     namespace_ := "default"
     selector := ""
     pods := []
     colorMode := "pod"
     color := { colorFuncs := colors.map colorFunc.pod, currentColor := 0, mode := logColorPod } },
   { cancelled := [], nextCtx := 1, launched := [], out := [] })

/-- The assigner `newLogColorPrint` returns for mode "off". -/
def offAssigner : logColorPrint :=
  { colorFuncs := [colorFunc.off], currentColor := 0, mode := logColorOff }

/-- The pod `ns/app-1` with containers `web` and `sidecar`. -/
def app1 : Pod :=
  { namespace_ := "ns", name := "app-1", containers := ["web", "sidecar"] }

/-- The pod `ns/app-2` with one container. -/
def app2 : Pod :=
  { namespace_ := "ns", name := "app-2", containers := ["main"] }

/-- A pod tail for `ns/app-1`, as `newPodTail` builds it in the state
`fresh`. -/
def app1Tail : podTail :=
  (newPodTail fresh.1 app1 fresh.2).1

/-! ## Theorems: colour assignment -/

theorem newLogColorPrint_line :
    newLogColorPrint "line" = Except.ok
      { colorFuncs := colors.map colorFunc.line, currentColor := 0, mode := logColorLine } := by
  rfl

theorem newLogColorPrint_pod :
    newLogColorPrint "pod" = Except.ok
      { colorFuncs := colors.map colorFunc.pod, currentColor := 0, mode := logColorPod } := by
  rfl

theorem newLogColorPrint_empty : newLogColorPrint "" = newLogColorPrint "line" := by
  rfl

theorem afterCalls_colorFuncs (l : logColorPrint) (n : Nat) :
    (afterCalls l n).colorFuncs = l.colorFuncs := by
  induction n with
  | zero => rfl
  | succ n ih => simp [afterCalls, getColor, ih]

theorem afterCalls_currentColor (l : logColorPrint) (h5 : l.colorFuncs.length = 5)
    (h0 : l.currentColor = 0) (n : Nat) : (afterCalls l n).currentColor = n % 5 := by
  induction n with
  | zero => simp [afterCalls, h0]
  | succ n ih =>
    simp only [afterCalls, getColor, ih, afterCalls_colorFuncs, h5]
    split <;> omega

theorem nthColor_eq (l : logColorPrint) (h5 : l.colorFuncs.length = 5)
    (h0 : l.currentColor = 0) (n : Nat) (hn : 1 ≤ n) :
    nthColor l n = l.colorFuncs[n % 5]? := by
  have hc := afterCalls_currentColor l h5 h0 (n - 1)
  simp only [nthColor, getColor, hc, afterCalls_colorFuncs, h5]
  have : (if (n - 1) % 5 + 1 ≥ 5 then 0 else (n - 1) % 5 + 1) = n % 5 := by
    split <;> omega
  rw [this]

/-- C4 (as stated, refuted): the empty mode string is none of "off", "line"
and "pod", and `newLogColorPrint` accepts it, building the assigner of mode
"line". -/
theorem newLogColorPrint_empty_mode_accepted :
    "" ≠ "off" ∧ "" ≠ "line" ∧ "" ≠ "pod" ∧
    newLogColorPrint "" = Except.ok
      { colorFuncs := colors.map colorFunc.line, currentColor := 0, mode := logColorLine } := by
  refine ⟨by decide, by decide, by decide, rfl⟩

/-- C4 (amended): `newLogColorPrint` succeeds for the mode strings "off",
"pod", "line" and the empty string, and for every other mode string it fails
with the error `unknown color print mode` and returns no assigner. -/
theorem newLogColorPrint_modes (mode : String) :
    (mode = "off" ∨ mode = "pod" ∨ mode = "line" ∨ mode = "" →
      ∃ l, newLogColorPrint mode = Except.ok l) ∧
    (¬ (mode = "off" ∨ mode = "pod" ∨ mode = "line" ∨ mode = "") →
      newLogColorPrint mode =
        Except.error (Error.errorf ("unknown color print mode: \"" ++ mode ++ "\""))) := by
  constructor
  · rintro (h | h | h | h) <;> subst h <;> exact ⟨_, rfl⟩
  · intro h
    simp only [not_or] at h
    obtain ⟨h1, h2, h3, h4⟩ := h
    simp [newLogColorPrint, h1, h2, h3, h4]

/-- The modes theorem at the empty mode string and at the mode string `rainbow`. -/
theorem newLogColorPrint_modes_witness :
    (∃ l, newLogColorPrint "" = Except.ok l) ∧
    newLogColorPrint "rainbow" =
      Except.error (Error.errorf ("unknown color print mode: \"" ++ "rainbow" ++ "\"")) :=
  ⟨(newLogColorPrint_modes "").1 (by decide), (newLogColorPrint_modes "rainbow").2 (by decide)⟩

/-- C5 (the code at the failing input): with the assigner of mode "line",
the function returned by the `n`-th call of `getColor`, called with any
`(label, line)`, leaves standard output as it was: the coloured string is
built and not printed. -/
theorem line_mode_writes_nothing (n : Nat) (label line : String) (out : Console) :
    (newLogColorPrint "line").toOption.map
        (fun l => (nthColor l (n + 1)).map (fun cf => cf.call label line out)) =
      some (some out) := by
  rw [newLogColorPrint_line]
  simp only [Except.toOption, Option.map]
  rw [nthColor_eq { colorFuncs := colors.map colorFunc.line, currentColor := 0,
                    mode := logColorLine } rfl rfl (n + 1) (by omega)]
  have h : (n + 1) % 5 < 5 := Nat.mod_lt _ (by decide)
  generalize (n + 1) % 5 = i at h
  interval_cases i <;> rfl

/-- C6: for the assigner of mode "line" or "pod", with `P` the size of its
palette, the `(k+P)`-th call of `getColor` returns the palette entry of the
`k`-th call for every `k ≥ 1`, every call returns an entry, and `P`
consecutive calls return pairwise distinct entries. -/
theorem getColor_round_robin (mode : String) (l : logColorPrint)
    (hm : mode = "line" ∨ mode = "pod") (hl : newLogColorPrint mode = Except.ok l)
    (k : Nat) (hk : 1 ≤ k) :
    nthColor l (k + l.colorFuncs.length) = nthColor l k ∧
    (nthColor l k).isSome = true ∧
    ∀ i j, i < l.colorFuncs.length → j < l.colorFuncs.length → i ≠ j →
      nthColor l (k + i) ≠ nthColor l (k + j) := by
  have hcases : l = { colorFuncs := colors.map colorFunc.line, currentColor := 0,
                      mode := logColorLine } ∨
                l = { colorFuncs := colors.map colorFunc.pod, currentColor := 0,
                      mode := logColorPod } := by
    rcases hm with h | h
    · subst h; rw [newLogColorPrint_line] at hl; left; exact (Except.ok.inj hl).symm
    · subst h; rw [newLogColorPrint_pod] at hl; right; exact (Except.ok.inj hl).symm
  have h5 : l.colorFuncs.length = 5 := by rcases hcases with h | h <;> subst h <;> rfl
  have h0 : l.currentColor = 0 := by rcases hcases with h | h <;> subst h <;> rfl
  have hnd : l.colorFuncs.Nodup := by rcases hcases with h | h <;> subst h <;> decide
  refine ⟨?_, ?_, ?_⟩
  · rw [nthColor_eq l h5 h0 _ (by omega), nthColor_eq l h5 h0 _ hk, h5]
    simp
  · rw [nthColor_eq l h5 h0 _ hk]
    have : k % 5 < l.colorFuncs.length := by omega
    simp [this]
  · intro i j hi hj hij
    rw [nthColor_eq l h5 h0 _ (by omega), nthColor_eq l h5 h0 _ (by omega)]
    have hi5 : (k + i) % 5 < l.colorFuncs.length := by omega
    have hj5 : (k + j) % 5 < l.colorFuncs.length := by omega
    rw [List.getElem?_eq_getElem hi5, List.getElem?_eq_getElem hj5]
    intro heq
    have := (List.Nodup.getElem_inj_iff hnd).1 (Option.some.inj heq)
    omega

/-- The round-robin theorem at mode "pod" and the first call. -/
theorem getColor_round_robin_witness :
    ("pod" = "line" ∨ "pod" = "pod") ∧
    newLogColorPrint "pod" = Except.ok fresh.1.color ∧
    1 ≤ 1 ∧
    nthColor fresh.1.color (1 + fresh.1.color.colorFuncs.length) = nthColor fresh.1.color 1 ∧
    (nthColor fresh.1.color 1).isSome = true ∧
    ∀ i j, i < fresh.1.color.colorFuncs.length → j < fresh.1.color.colorFuncs.length → i ≠ j →
      nthColor fresh.1.color (1 + i) ≠ nthColor fresh.1.color (1 + j) :=
  ⟨Or.inr rfl, rfl, Nat.le_refl 1,
   getColor_round_robin "pod" fresh.1.color (Or.inr rfl) rfl 1 (Nat.le_refl 1)⟩

/-! ## Theorems: maps -/

theorem mapGet_mem {α : Type} (m : List (String × α)) (key : String) (v : α) :
    mapGet m key = some v → (key, v) ∈ m := by
  induction m with
  | nil => intro h; simp [mapGet] at h
  | cons kv rest ih =>
    obtain ⟨k, v'⟩ := kv
    intro h
    simp only [mapGet] at h
    split at h
    · rename_i hk
      subst hk
      simp only [Option.some.injEq] at h
      subst h
      exact List.mem_cons_self _ _
    · exact List.mem_cons_of_mem _ (ih h)

theorem mapSet_absent {α : Type} (m : List (String × α)) (key : String) (v : α) :
    mapGet m key = none → mapSet m key v = m ++ [(key, v)] := by
  induction m with
  | nil => intro _; rfl
  | cons kv rest ih =>
    obtain ⟨k, v'⟩ := kv
    intro h
    simp only [mapGet] at h
    split at h
    · simp at h
    · rename_i hk
      simp only [mapSet, hk, if_false, ih h, List.cons_append]


/-! ## Theorems: reconciliation -/

theorem New_default : New [] (Except.ok ()) World.init = Except.ok fresh := by
  rfl

theorem startPod_keys (kw : KubeLogTail × World) (entry : String × Pod) (key : String) :
    key ∈ mapKeys kw.1.pods → key ∈ mapKeys (startPod kw entry).1.pods := by
  intro h
  unfold startPod
  cases hget : mapGet kw.1.pods entry.1 with
  | some t => exact h
  | none =>
    show key ∈ mapKeys (mapSet kw.1.pods entry.1 _)
    rw [mapSet_absent _ _ _ hget]
    simp only [mapKeys, List.map_append, List.mem_append]
    exact Or.inl h

theorem foldl_startPod_keys (found : List (String × Pod)) (key : String) :
    ∀ kw : KubeLogTail × World, key ∈ mapKeys kw.1.pods →
      key ∈ mapKeys (found.foldl startPod kw).1.pods := by
  induction found with
  | nil => intro kw h; exact h
  | cons entry rest ih =>
    intro kw h
    exact ih _ (startPod_keys kw entry key h)

theorem processPods_keeps_keys (listing : Except Error (List Pod)) (k : KubeLogTail)
    (w : World) (key : String) (h : key ∈ mapKeys k.pods) :
    key ∈ mapKeys (processPods listing k w).1.pods := by
  cases listing with
  | error e => exact h
  | ok pods =>
    simp only [processPods, getPods]
    exact foldl_startPod_keys _ key (k, w) h

/-- C1 (the code at the failing input): the listings `{ns/app-1}`, then
nothing, then `{ns/app-1}` again. The second tick calls the cancel function of
the tail of `ns/app-1`. At the third tick `A` is empty and `B` is
`{ns/app-1}`, so `ns/app-1` is in `B` minus `A`, and the tick starts no tail:
the stopped tail of the first tick is still in the tracked map, with its
scope cancelled. -/
theorem processPods_relisted_pod_gets_no_tail :
    (processPods (Except.ok [app1]) (ticks [[app1], []] fresh).1
      (ticks [[app1], []] fresh).2).2.2 = none ∧
    mapGet (foundPods [app1]) "ns/app-1" = some app1 ∧
    mapGet (foundPods []) "ns/app-1" = none ∧
    startedKeys (ticks [[app1], []] fresh).2
      (processPods (Except.ok [app1]) (ticks [[app1], []] fresh).1
        (ticks [[app1], []] fresh).2).2.1 = [] ∧
    (processPods (Except.ok [app1]) (ticks [[app1], []] fresh).1
      (ticks [[app1], []] fresh).2).2.1.launched.map podTail.key = ["ns/app-1"] ∧
    (mapGet (processPods (Except.ok [app1]) (ticks [[app1], []] fresh).1
        (ticks [[app1], []] fresh).2).1.pods "ns/app-1").map
      (fun t => t.ctx.done (processPods (Except.ok [app1]) (ticks [[app1], []] fresh).1
        (ticks [[app1], []] fresh).2).2.1.cancelled) = some true := by
  decide

/-- C2 (the code at the failing input): with `ns/app-1` tracked and an empty
listing, `processPods` calls the cancel function of its tail and leaves the
key in the tracked map, whose key set is `{ns/app-1}` and not the empty
set of the listing. -/
theorem processPods_keeps_stale_key :
    (processPods (Except.ok []) (ticks [[app1]] fresh).1 (ticks [[app1]] fresh).2).2.2 = none ∧
    mapKeys (ticks [[app1]] fresh).1.pods = ["ns/app-1"] ∧
    mapKeys (foundPods []) = [] ∧
    cancelCalls (ticks [[app1]] fresh).2
      (processPods (Except.ok []) (ticks [[app1]] fresh).1 (ticks [[app1]] fresh).2).2.1 = [1] ∧
    (mapGet (processPods (Except.ok []) (ticks [[app1]] fresh).1
        (ticks [[app1]] fresh).2).1.pods "ns/app-1").map (fun t => t.cancel) = some 1 ∧
    mapKeys (processPods (Except.ok []) (ticks [[app1]] fresh).1
      (ticks [[app1]] fresh).2).1.pods = ["ns/app-1"] := by
  decide

/-- C9 (the code at the failing input): the pod tail of `ns/app-1` with
containers `web` and `sidecar`, where the goroutine of `web` has stored the
error of its failed stream before the loop of `tail` tests `err`: `tail`
returns that error after starting `web` only, without starting `sidecar`
and without waiting. -/
theorem tail_early_error_skips_sibling :
    app1Tail.containers = ["web", "sidecar"] ∧
    tail app1Tail
        (fun i => if i = 0 then { ret := some (Error.errorf "stream refused"), early := true }
                  else { ret := none, early := false }) =
      { started := ["web"]
        waited := false
        ret := some (Error.wrapf (Error.errorf "stream refused")
          "failed tailing logs for pod ns/app-1") } := by
  decide

/-- C3 (as stated, refuted): when the listing of the first execution fails,
`Run` returns an error, whatever events would follow. -/
theorem Run_first_list_failure_fatal :
    (Run (Except.error (Error.errorf "connection refused"))
        [Event.tick (Except.ok [app1])] fresh.1 fresh.2).2.2 =
      RunResult.returned (some (Error.wrapf (Error.wrapf (Error.wrapf
        (Error.errorf "connection refused") "Failed to list pods") "failed to list pods")
        "failed to process pods for logs")) := by
  rfl

theorem runLoop_returns_no_error (events : List Event) :
    ∀ (k : KubeLogTail) (w : World) (err : Error),
      (runLoop events k w).2.2 ≠ RunResult.returned (some err) := by
  induction events with
  | nil => intro k w err h; simp [runLoop] at h
  | cons ev rest ih =>
    intro k w err
    cases ev with
    | tick listing =>
      rw [runLoop]
      split
      · exact ih _ _ err
      · exact ih _ _ err
    | stop =>
      rw [runLoop]
      exact ih _ _ err
    | done =>
      rw [runLoop]
      split
      · intro h
        simp at h
      · exact ih _ _ err

/-- C3 (amended): a failure of the pod listing leaves the tracked-pod map,
and the whole reconciler, unchanged. At every tick of the loop of `Run` it is
not fatal: the loop returns no error, prints the failure and goes on with the
following events from the unchanged state. At the immediate first execution
`Run` returns the failure, wrapped, as its error. -/
theorem Run_list_failure (k : KubeLogTail) (w : World) (e : Error) (events : List Event) :
    (∀ err, (runLoop (Event.tick (Except.error e) :: events) k w).2.2 ≠
      RunResult.returned (some err)) ∧
    (processPods (Except.error e) k w).1 = k ∧
    (processPods (Except.error e) k w).2.1 = w ∧
    Run (Except.error e) events k w =
      (k, w, RunResult.returned (some (Error.wrapf (Error.wrapf (Error.wrapf e
        "Failed to list pods") "failed to list pods") "failed to process pods for logs"))) ∧
    runLoop (Event.tick (Except.error e) :: events) k w =
      runLoop events k
        { w with out := Println1 (Chunk.plain (Error.wrapf (Error.wrapf (Error.wrapf e
          "Failed to list pods") "failed to list pods")
          "failed to process pods for logs").text) w.out } := by
  exact ⟨fun err => runLoop_returns_no_error _ k w err, rfl, rfl, rfl, rfl⟩

/-! ## Theorems: the container tail -/

theorem getColor_some (l : logColorPrint) (h : l.colorFuncs ≠ []) :
    ∃ cf, (getColor l).2 = some cf := by
  have hpos : 0 < l.colorFuncs.length := List.length_pos.2 h
  simp only [getColor]
  split
  · exact ⟨l.colorFuncs[0], List.getElem?_eq_getElem hpos⟩
  · rename_i hlt
    exact ⟨l.colorFuncs[l.currentColor + 1], List.getElem?_eq_getElem (by omega)⟩

theorem scanLines_line (maxTokenSize : Nat) (final : Option Error) (ln rest : List Char) :
    ∀ cur : List Char, '\n' ∉ ln → cur.length + ln.length < maxTokenSize →
      scanLines maxTokenSize final cur (ln ++ '\n' :: rest) =
        (String.mk (dropCR (cur ++ ln)) :: (scanLines maxTokenSize final [] rest).1,
         (scanLines maxTokenSize final [] rest).2) := by
  induction ln with
  | nil => intro cur _ _; simp [scanLines]
  | cons b ln ih =>
    intro cur hnl hlen
    have hb : b ≠ '\n' := fun h => hnl (by simp [h])
    have hln : '\n' ∉ ln := fun h => hnl (List.mem_cons_of_mem _ h)
    simp only [List.length_cons] at hlen
    have hfit : ¬ maxTokenSize ≤ cur.length + 1 := by omega
    rw [List.cons_append, scanLines]
    simp only [hb, hfit, if_false]
    rw [ih (cur ++ [b]) hln (by simp; omega)]
    simp

theorem scanLines_last (maxTokenSize : Nat) (final : Option Error) (last : List Char) :
    ∀ cur : List Char, '\n' ∉ last → cur.length + last.length < maxTokenSize →
      scanLines maxTokenSize final cur last =
        (if cur ++ last = [] then [] else [String.mk (dropCR (cur ++ last))], final) := by
  induction last with
  | nil => intro cur _ _; simp [scanLines]
  | cons b last ih =>
    intro cur hnl hlen
    have hb : b ≠ '\n' := fun h => hnl (by simp [h])
    have hlast : '\n' ∉ last := fun h => hnl (List.mem_cons_of_mem _ h)
    simp only [List.length_cons] at hlen
    have hfit : ¬ maxTokenSize ≤ cur.length + 1 := by omega
    rw [scanLines]
    simp only [hb, hfit, if_false]
    rw [ih (cur ++ [b]) hlast (by simp; omega)]
    simp

theorem scanLines_long (maxTokenSize : Nat) (final : Option Error) (run rest : List Char) :
    ∀ cur : List Char, '\n' ∉ run → cur.length < maxTokenSize →
      maxTokenSize ≤ cur.length + run.length →
      scanLines maxTokenSize final cur (run ++ rest) = ([], some ErrTooLong) := by
  induction run with
  | nil => intro cur _ h1 h2; simp at h2; omega
  | cons b run ih =>
    intro cur hnl hcur hlen
    have hb : b ≠ '\n' := fun h => hnl (by simp [h])
    have hrun : '\n' ∉ run := fun h => hnl (List.mem_cons_of_mem _ h)
    simp only [List.length_cons] at hlen
    rw [List.cons_append, scanLines]
    simp only [hb, if_false]
    split
    · rfl
    · rename_i hfit
      exact ih (cur ++ [b]) hrun (by simp; omega) (by simp; omega)

theorem scanLines_lines (maxTokenSize : Nat) (final : Option Error) (rest : List Char)
    (lines : List (List Char))
    (h : ∀ ln ∈ lines, '\n' ∉ ln ∧ ln.length < maxTokenSize) :
    scanLines maxTokenSize final [] ((lines.map (fun ln => ln ++ ['\n'])).flatten ++ rest) =
      (lines.map (fun ln => String.mk (dropCR ln)) ++ (scanLines maxTokenSize final [] rest).1,
       (scanLines maxTokenSize final [] rest).2) := by
  induction lines with
  | nil => simp
  | cons ln lines ih =>
    have hln := h ln (List.mem_cons_self _ _)
    have hrest : ∀ l ∈ lines, '\n' ∉ l ∧ l.length < maxTokenSize :=
      fun l hl => h l (List.mem_cons_of_mem _ hl)
    simp only [List.map_cons, List.flatten_cons, List.append_assoc, List.singleton_append,
      List.cons_append]
    rw [scanLines_line maxTokenSize final ln _ [] hln.1 (by simpa using hln.2)]
    simp only [List.nil_append]
    rw [ih hrest]

theorem tailContainer_opened (p : podTail) (name : String) (l : logColorPrint) (out : Console)
    (s : Stream) (printer : colorFunc) (tokens : List String) (e : Option Error)
    (hp : (getColor l).2 = some printer)
    (hs : scanLines MaxScanTokenSize s.err [] s.data = (tokens, e)) :
    tailContainer p name (Except.ok s) l out = some
      { color := (getColor l).1
        out := tokens.foldl
          (fun o t => printer.call (p.namespace_ ++ "/" ++ p.name ++ "/" ++ name) t o) out
        calls := tokens.map (fun t => (p.namespace_ ++ "/" ++ p.name ++ "/" ++ name, t))
        closed := true
        ret := e.map (fun err => Error.wrapf err
          ("error scanning for lines for " ++ (p.namespace_ ++ "/" ++ p.name ++ "/" ++ name))) } := by
  have hg : getColor l = ((getColor l).1, some printer) := by rw [← hp]
  simp only [tailContainer]
  rw [hg]
  simp only [hs]
  cases e <;> rfl

/-- C7 (as stated, refuted): a stream whose first line has `MaxScanTokenSize`
(65536) bytes before its newline opens and ends without a read error, and
`tailContainer` calls the presentation function not once and returns the
error `bufio.ErrTooLong`, wrapped; and for the stream `a\r\n` the function is
called with the text `a`, which is the line without its newline and without
its carriage return. -/
theorem tailContainer_long_line_fails :
    tailContainer app1Tail "web"
        (Except.ok { data := List.replicate MaxScanTokenSize 'a' ++ ['\n', 'b', '\n'],
                     err := none })
        fresh.1.color [] = some
      { color := (getColor fresh.1.color).1
        out := []
        calls := []
        closed := true
        ret := some (Error.wrapf ErrTooLong "error scanning for lines for ns/app-1/web") } ∧
    (tailContainer app1Tail "web"
        (Except.ok { data := ['a', '\r', '\n'], err := none }) fresh.1.color []).map
      (fun r => (r.calls, r.ret)) = some ([("ns/app-1/web", "a")], none) := by
  constructor
  · have hnl : '\n' ∉ List.replicate MaxScanTokenSize 'a' :=
      fun h => absurd (List.eq_of_mem_replicate h) (by decide)
    have hlen : MaxScanTokenSize ≤
        ([] : List Char).length + (List.replicate MaxScanTokenSize 'a').length := by
      rw [List.length_replicate]
      exact Nat.le_add_left _ _
    have hs := scanLines_long MaxScanTokenSize none (List.replicate MaxScanTokenSize 'a')
      ['\n', 'b', '\n'] [] hnl (by decide) hlen
    rw [tailContainer_opened app1Tail "web" fresh.1.color []
      { data := List.replicate MaxScanTokenSize 'a' ++ ['\n', 'b', '\n'], err := none }
      (colorFunc.pod fmtPrinter.CyanString) [] (some ErrTooLong) (by decide) hs]
    decide
  · decide

/-- C7 (amended): for a stream that opens and ends without a read error and in
which every line, and the unterminated rest after the last newline, has fewer
than 65536 bytes, `tailContainer` calls the presentation function it got from
`getColor` once for each newline-terminated line, in stream order, and once
more for a non-empty unterminated rest, each time with the label
`namespace/podName/containerName` and the text of the line without its newline
and without one trailing carriage return; then it closes the stream and
returns nil. -/
theorem tailContainer_lines (p : podTail) (name : String) (l : logColorPrint) (out : Console)
    (lines : List (List Char)) (last : List Char)
    (hl : l.colorFuncs ≠ [])
    (hlines : ∀ ln ∈ lines, '\n' ∉ ln ∧ ln.length < MaxScanTokenSize)
    (hlast : '\n' ∉ last ∧ last.length < MaxScanTokenSize) :
    ∃ r printer,
      tailContainer p name
        (Except.ok { data := (lines.map (fun ln => ln ++ ['\n'])).flatten ++ last, err := none })
        l out = some r ∧
      (getColor l).2 = some printer ∧
      r.calls = (lines ++ (if last = [] then [] else [last])).map
        (fun ln => (p.namespace_ ++ "/" ++ p.name ++ "/" ++ name, String.mk (dropCR ln))) ∧
      r.out = r.calls.foldl (fun o c => printer.call c.1 c.2 o) out ∧
      r.closed = true ∧
      r.ret = none := by
  obtain ⟨printer, hp⟩ := getColor_some l hl
  have hs := scanLines_lines MaxScanTokenSize none last lines hlines
  rw [scanLines_last MaxScanTokenSize none last [] hlast.1 (by simpa using hlast.2)] at hs
  have htok : (lines.map (fun ln => String.mk (dropCR ln)) ++
      (if [] ++ last = [] then [] else [String.mk (dropCR ([] ++ last))])) =
      (lines ++ (if last = [] then [] else [last])).map (fun ln => String.mk (dropCR ln)) := by
    by_cases hlast0 : last = [] <;> simp [hlast0]
  rw [htok] at hs
  refine ⟨_, printer, tailContainer_opened p name l out _ printer _ none hp hs, hp, ?_, ?_,
    rfl, rfl⟩
  · simp only [List.map_map]
    rfl
  · simp only [List.foldl_map]

/-- The lines theorem at the stream `hi\nyo\r\nend` of container `web`. -/
theorem tailContainer_lines_witness :
    ∃ r printer,
      tailContainer app1Tail "web"
        (Except.ok { data := ([['h', 'i'], ['y', 'o', '\r']].map
                       (fun ln => ln ++ ['\n'])).flatten ++ ['e', 'n', 'd'],
                     err := none })
        fresh.1.color [] = some r ∧
      (getColor fresh.1.color).2 = some printer ∧
      r.calls = ([['h', 'i'], ['y', 'o', '\r']] ++
          (if ['e', 'n', 'd'] = [] then [] else [['e', 'n', 'd']])).map
        (fun ln => (app1Tail.namespace_ ++ "/" ++ app1Tail.name ++ "/" ++ "web",
          String.mk (dropCR ln))) ∧
      r.out = r.calls.foldl (fun o c => printer.call c.1 c.2 o) [] ∧
      r.closed = true ∧
      r.ret = none :=
  tailContainer_lines app1Tail "web" fresh.1.color [] [['h', 'i'], ['y', 'o', '\r']]
    ['e', 'n', 'd'] (by decide)
    (by
      intro ln hln
      simp only [List.mem_cons, List.mem_singleton, List.not_mem_nil, or_false] at hln
      rcases hln with h | h <;> subst h <;> exact ⟨by decide, by decide⟩)
    ⟨by decide, by decide⟩

/-- C8 (as stated, refuted): when the scope is cancelled after the line `hi`
was read, the pending read fails with the error of the context and
`tailContainer` closes the stream and returns that error, wrapped, and not
nil; and a stream of `MaxScanTokenSize` bytes without a newline, which opens
and has no read error, makes it return `bufio.ErrTooLong`, wrapped. -/
theorem tailContainer_cancel_is_error :
    (tailContainer app1Tail "web" (Except.ok (cancelledStream ['h', 'i', '\n']))
        fresh.1.color []).map (fun r => (r.calls, r.closed, r.ret)) =
      some ([("ns/app-1/web", "hi")], true,
        some (Error.wrapf Canceled "error scanning for lines for ns/app-1/web")) ∧
    (tailContainer app1Tail "web"
        (Except.ok { data := List.replicate MaxScanTokenSize 'x' ++ [], err := none })
        fresh.1.color []).map (fun r => (r.calls, r.closed, r.ret)) =
      some ([], true,
        some (Error.wrapf ErrTooLong "error scanning for lines for ns/app-1/web")) := by
  constructor
  · decide
  · have hnl : '\n' ∉ List.replicate MaxScanTokenSize 'x' :=
      fun h => absurd (List.eq_of_mem_replicate h) (by decide)
    have hlen : MaxScanTokenSize ≤
        ([] : List Char).length + (List.replicate MaxScanTokenSize 'x').length := by
      rw [List.length_replicate]
      exact Nat.le_add_left _ _
    have hs := scanLines_long MaxScanTokenSize none (List.replicate MaxScanTokenSize 'x')
      [] [] hnl (by decide) hlen
    rw [tailContainer_opened app1Tail "web" fresh.1.color []
      { data := List.replicate MaxScanTokenSize 'x' ++ [], err := none }
      (colorFunc.pod fmtPrinter.CyanString) [] (some ErrTooLong) (by decide) hs]
    decide

/-- C8 (amended): `tailContainer` returns a non-nil error, which wraps the
cause together with the label `namespace/podName/containerName`, in three
cases: the stream fails to open (then there is no stream to close); the reads
end with an error, which is also what happens when the parent scope is
cancelled (the pending read fails with the error of the context) - the stream
is closed; a line reaches 65536 bytes without a newline (the cause is
`bufio.ErrTooLong`) - the stream is closed. It returns nil, after closing the
stream, when every line has fewer than 65536 bytes and the reads end at the
end of the data. -/
theorem tailContainer_errors (p : podTail) (name : String) (l : logColorPrint) (out : Console)
    (hl : l.colorFuncs ≠ []) :
    (∀ cause : Error, ∃ r,
      tailContainer p name (Except.error cause) l out = some r ∧
      r.closed = false ∧ r.calls = [] ∧
      r.ret = some (Error.wrapf cause
        ("unable to stream logs for " ++ (p.namespace_ ++ "/" ++ p.name ++ "/" ++ name)))) ∧
    (∀ (lines : List (List Char)) (last : List Char) (final : Option Error),
      (∀ ln ∈ lines, '\n' ∉ ln ∧ ln.length < MaxScanTokenSize) →
      '\n' ∉ last ∧ last.length < MaxScanTokenSize →
      ∃ r,
        tailContainer p name
          (Except.ok { data := (lines.map (fun ln => ln ++ ['\n'])).flatten ++ last,
                       err := final }) l out = some r ∧
        r.closed = true ∧
        r.ret = final.map (fun cause => Error.wrapf cause
          ("error scanning for lines for " ++
            (p.namespace_ ++ "/" ++ p.name ++ "/" ++ name)))) ∧
    (∀ (lines : List (List Char)) (run rest : List Char) (final : Option Error),
      (∀ ln ∈ lines, '\n' ∉ ln ∧ ln.length < MaxScanTokenSize) →
      '\n' ∉ run → MaxScanTokenSize ≤ run.length →
      ∃ r,
        tailContainer p name
          (Except.ok { data := (lines.map (fun ln => ln ++ ['\n'])).flatten ++ (run ++ rest),
                       err := final }) l out = some r ∧
        r.closed = true ∧
        r.ret = some (Error.wrapf ErrTooLong
          ("error scanning for lines for " ++
            (p.namespace_ ++ "/" ++ p.name ++ "/" ++ name)))) := by
  obtain ⟨printer, hp⟩ := getColor_some l hl
  have hg : getColor l = ((getColor l).1, some printer) := by rw [← hp]
  refine ⟨?_, ?_, ?_⟩
  · intro cause
    refine ⟨{ color := (getColor l).1, out := out, calls := [], closed := false,
              ret := some (Error.wrapf cause ("unable to stream logs for " ++
                (p.namespace_ ++ "/" ++ p.name ++ "/" ++ name))) }, ?_, rfl, rfl, rfl⟩
    simp only [tailContainer]
    rw [hg]
  · intro lines last final hlines hlast
    have hs := scanLines_lines MaxScanTokenSize final last lines hlines
    rw [scanLines_last MaxScanTokenSize final last [] hlast.1 (by simpa using hlast.2)] at hs
    exact ⟨_, tailContainer_opened p name l out _ printer _ final hp hs, rfl, rfl⟩
  · intro lines run rest final hlines hrun hlen
    have hs := scanLines_lines MaxScanTokenSize final (run ++ rest) lines hlines
    rw [scanLines_long MaxScanTokenSize final run rest [] hrun (by decide)
      (by simpa using hlen)] at hs
    exact ⟨_, tailContainer_opened p name l out _ printer _ (some ErrTooLong) hp hs, rfl, rfl⟩

/-- The errors theorem at a stream that does not open and at a stream cut by a
cancelled scope after `hi\ny`. -/
theorem tailContainer_errors_witness :
    (∃ r, tailContainer app1Tail "web" (Except.error (Error.errorf "refused"))
        fresh.1.color [] = some r ∧
      r.closed = false ∧ r.calls = [] ∧
      r.ret = some (Error.wrapf (Error.errorf "refused")
        ("unable to stream logs for " ++
          (app1Tail.namespace_ ++ "/" ++ app1Tail.name ++ "/" ++ "web")))) ∧
    (∃ r, tailContainer app1Tail "web"
        (Except.ok { data := ([['h', 'i']].map (fun ln => ln ++ ['\n'])).flatten ++ ['y'],
                     err := some Canceled })
        fresh.1.color [] = some r ∧
      r.closed = true ∧
      r.ret = (some Canceled).map (fun cause => Error.wrapf cause
        ("error scanning for lines for " ++
          (app1Tail.namespace_ ++ "/" ++ app1Tail.name ++ "/" ++ "web")))) :=
  ⟨(tailContainer_errors app1Tail "web" fresh.1.color [] (by decide)).1 (Error.errorf "refused"),
   (tailContainer_errors app1Tail "web" fresh.1.color [] (by decide)).2.1 [['h', 'i']] ['y']
     (some Canceled)
     (by
       intro ln hln
       simp only [List.mem_singleton] at hln
       subst hln
       exact ⟨by decide, by decide⟩)
     ⟨by decide, by decide⟩⟩

/-! ## Theorems: cancellation scopes -/

theorem ScopesOk_world (k : KubeLogTail) (w w' : World) (hn : w'.nextCtx = w.nextCtx) :
    ScopesOk k w → ScopesOk k w' := by
  intro h
  unfold ScopesOk at *
  rw [hn]
  exact h

theorem startPod_scopes (kw : KubeLogTail × World) (entry : String × Pod)
    (h : ScopesOk kw.1 kw.2) :
    ScopesOk (startPod kw entry).1 (startPod kw entry).2 ∧
    (startPod kw entry).1.ctx = kw.1.ctx ∧ (startPod kw entry).1.cancel = kw.1.cancel ∧
    (startPod kw entry).2.cancelled = kw.2.cancelled := by
  unfold startPod
  cases hget : mapGet kw.1.pods entry.1 with
  | some t => exact ⟨h, rfl, rfl, rfl⟩
  | none =>
    obtain ⟨hctx, hlt, hpods, hnd⟩ := h
    refine ⟨⟨hctx, ?_, ?_, ?_⟩, rfl, rfl, rfl⟩
    · show kw.1.cancel < kw.2.nextCtx + 1
      omega
    · intro kv hkv
      simp only [mapSet_absent _ _ _ hget, List.mem_append, List.mem_singleton] at hkv
      rcases hkv with hkv | hkv
      · obtain ⟨h1, h2, h3⟩ := hpods kv hkv
        exact ⟨h1, Nat.lt_succ_of_lt h2, h3⟩
      · subst hkv
        refine ⟨rfl, Nat.lt_succ_self _, ?_⟩
        show kw.2.nextCtx ≠ kw.1.cancel
        omega
    · show (List.map (fun kv => kv.2.cancel) (mapSet kw.1.pods entry.1 _)).Nodup
      rw [mapSet_absent _ _ _ hget, List.map_append, List.nodup_append]
      refine ⟨hnd, List.nodup_singleton _, ?_⟩
      intro a ha hb
      simp only [List.map_cons, List.map_nil, List.mem_singleton] at hb
      obtain ⟨kv, hkv, hkva⟩ := List.mem_map.1 ha
      have := (hpods kv hkv).2.1
      rw [hkva, hb] at this
      exact absurd this (by simp [newPodTail])

theorem foldl_startPod_scopes (found : List (String × Pod)) :
    ∀ kw : KubeLogTail × World, ScopesOk kw.1 kw.2 →
      ScopesOk (found.foldl startPod kw).1 (found.foldl startPod kw).2 ∧
      (found.foldl startPod kw).1.ctx = kw.1.ctx ∧
      (found.foldl startPod kw).1.cancel = kw.1.cancel ∧
      (found.foldl startPod kw).2.cancelled = kw.2.cancelled := by
  induction found with
  | nil => intro kw h; exact ⟨h, rfl, rfl, rfl⟩
  | cons entry rest ih =>
    intro kw h
    obtain ⟨h1, h2, h3, h4⟩ := startPod_scopes kw entry h
    obtain ⟨g1, g2, g3, g4⟩ := ih (startPod kw entry) h1
    exact ⟨g1, g2.trans h2, g3.trans h3, g4.trans h4⟩

theorem stopPod_nextCtx (found : List (String × Pod)) (k : KubeLogTail) (w : World)
    (entry : String × Bool) : (stopPod found k w entry).nextCtx = w.nextCtx := by
  unfold stopPod
  split
  · rfl
  · split <;> rfl

theorem foldl_stopPod_nextCtx (found : List (String × Pod)) (k : KubeLogTail)
    (old : List (String × Bool)) :
    ∀ w : World, (old.foldl (stopPod found k) w).nextCtx = w.nextCtx := by
  induction old with
  | nil => intro w; rfl
  | cons entry rest ih =>
    intro w
    rw [List.foldl_cons, ih, stopPod_nextCtx]

theorem processPods_scopes (listing : Except Error (List Pod)) (k : KubeLogTail) (w : World)
    (h : ScopesOk k w) :
    ScopesOk (processPods listing k w).1 (processPods listing k w).2.1 := by
  cases listing with
  | error e => exact h
  | ok pods =>
    simp only [processPods, getPods]
    obtain ⟨h1, _, _, _⟩ := foldl_startPod_scopes (foundPods pods) (k, w) h
    exact ScopesOk_world _ _ _ (foldl_stopPod_nextCtx _ _ _ _) h1

theorem applyOptions_scopes (settings : List Setting) :
    ∀ k k' : KubeLogTail, applyOptions (settings.map Setting.toFunc) k = Except.ok k' →
      k'.ctx = k.ctx ∧ k'.cancel = k.cancel ∧ k'.pods = k.pods := by
  induction settings with
  | nil =>
    intro k k' h
    simp only [List.map_nil, applyOptions, Except.ok.injEq] at h
    subst h
    exact ⟨rfl, rfl, rfl⟩
  | cons s rest ih =>
    intro k k' h
    simp only [List.map_cons, applyOptions] at h
    cases hs : s.toFunc k with
    | error e => rw [hs] at h; simp at h
    | ok k1 =>
      rw [hs] at h
      obtain ⟨g1, g2, g3⟩ := ih k1 k' h
      have hk1 : k1.ctx = k.ctx ∧ k1.cancel = k.cancel ∧ k1.pods = k.pods := by
        cases s with
        | kubeConfig c =>
          simp only [Setting.toFunc, SetKubeConfig, Except.ok.injEq] at hs
          subst hs; exact ⟨rfl, rfl, rfl⟩
        | refreshTime d =>
          simp only [Setting.toFunc, SetRefreshTime, Except.ok.injEq] at hs
          subst hs; exact ⟨rfl, rfl, rfl⟩
        | namespace_ ns =>
          simp only [Setting.toFunc, SetNamespace, Except.ok.injEq] at hs
          subst hs; exact ⟨rfl, rfl, rfl⟩
        | labelSelector parse q =>
          simp only [Setting.toFunc, SetLabelSelector] at hs
          cases hp : parse q with
          | error e => rw [hp] at hs; simp at hs
          | ok sel =>
            rw [hp] at hs
            simp only [Except.ok.injEq] at hs
            subst hs; exact ⟨rfl, rfl, rfl⟩
        | colorMode m =>
          simp only [Setting.toFunc, SetColorMode, Except.ok.injEq] at hs
          subst hs; exact ⟨rfl, rfl, rfl⟩
      exact ⟨g1.trans hk1.1, g2.trans hk1.2.1, g3.trans hk1.2.2⟩

theorem New_scopes (settings : List Setting) (client : Except Error Unit) (k : KubeLogTail)
    (w : World) (h : New (settings.map Setting.toFunc) client World.init = Except.ok (k, w)) :
    ScopesOk k w := by
  simp only [New] at h
  split at h
  · simp at h
  · rename_i k1 hk1
    obtain ⟨g1, g2, g3⟩ := applyOptions_scopes settings _ _ hk1
    split at h
    · simp at h
    · split at h
      · simp at h
      · simp only [Except.ok.injEq, Prod.mk.injEq] at h
        obtain ⟨hk, hw⟩ := h
        subst hk
        subst hw
        refine ⟨?_, ?_, ?_, ?_⟩
        · show k1.ctx = Context.withCancel k1.cancel Context.background
          rw [g1, g2]
        · show k1.cancel < World.init.nextCtx + 1
          rw [g2]
          exact Nat.lt_succ_self _
        · intro kv hkv
          have : kv ∈ k1.pods := hkv
          rw [g3] at this
          simp at this
        · show (List.map (fun kv => kv.2.cancel) k1.pods).Nodup
          rw [g3]
          exact List.nodup_nil

theorem Reachable_scopes (k : KubeLogTail) (w : World) (h : Reachable k w) : ScopesOk k w := by
  induction h with
  | new settings client k w hnew => exact New_scopes settings client k w hnew
  | tick listing k w _ ih => exact processPods_scopes listing k w ih
  | stop k w _ ih => exact ScopesOk_world k w (Stop k w) rfl ih

/-- C10: in every state reached by `New`, reconciliation ticks and `Stop`, the
scope of every tracked pod tail is the child, made by `context.WithCancel`, of
the scope of the reconciler; after `Stop` the scope of every tracked pod tail
is cancelled; and `stop` on one tracked pod tail cancels the scope of that pod
tail and changes neither whether the scope of the reconciler is cancelled nor
whether the scope of any other tracked pod tail is cancelled. -/
theorem scopes_of_tracked_pods (k : KubeLogTail) (w : World) (h : Reachable k w) :
    (∀ key t, mapGet k.pods key = some t → t.ctx = Context.withCancel t.cancel k.ctx) ∧
    (∀ key t, mapGet k.pods key = some t → t.ctx.done (Stop k w).cancelled = true) ∧
    (∀ a ta, mapGet k.pods a = some ta →
      ta.ctx.done (ta.stop w).cancelled = true ∧
      k.ctx.done (ta.stop w).cancelled = k.ctx.done w.cancelled ∧
      ∀ b tb, mapGet k.pods b = some tb → b ≠ a →
        tb.ctx.done (ta.stop w).cancelled = tb.ctx.done w.cancelled) := by
  obtain ⟨hctx, _, hpods, hnd⟩ := Reachable_scopes k w h
  refine ⟨?_, ?_, ?_⟩
  · intro key t ht
    exact (hpods _ (mapGet_mem _ _ _ ht)).1
  · intro key t ht
    rw [(hpods _ (mapGet_mem _ _ _ ht)).1, hctx]
    simp [Context.done, Stop]
  · intro a ta hta
    have hmema := mapGet_mem _ _ _ hta
    obtain ⟨ha1, _, ha3⟩ := hpods _ hmema
    refine ⟨?_, ?_, ?_⟩
    · rw [ha1]
      simp [Context.done, podTail.stop]
    · rw [hctx]
      have : k.cancel ≠ ta.cancel := fun h => ha3 h.symm
      simp [Context.done, podTail.stop, this]
    · intro b tb htb hba
      have hmemb := mapGet_mem _ _ _ htb
      obtain ⟨hb1, _, hb3⟩ := hpods _ hmemb
      have hne : tb.cancel ≠ ta.cancel := by
        intro heq
        have := List.inj_on_of_nodup_map hnd hmemb hmema heq
        exact hba (Prod.mk.inj this).1
      have hk : k.cancel ≠ ta.cancel := fun h => ha3 h.symm
      rw [hb1, hctx]
      simp [Context.done, podTail.stop, hne, hk]

/-- The scopes theorem at the state after one tick that lists `ns/app-1` and
`ns/app-2`. -/
theorem scopes_of_tracked_pods_witness :
    Reachable (ticks [[app1, app2]] fresh).1 (ticks [[app1, app2]] fresh).2 ∧
    (∀ key t, mapGet (ticks [[app1, app2]] fresh).1.pods key = some t →
      t.ctx = Context.withCancel t.cancel (ticks [[app1, app2]] fresh).1.ctx) ∧
    (∀ key t, mapGet (ticks [[app1, app2]] fresh).1.pods key = some t →
      t.ctx.done (Stop (ticks [[app1, app2]] fresh).1
        (ticks [[app1, app2]] fresh).2).cancelled = true) ∧
    (∀ a ta, mapGet (ticks [[app1, app2]] fresh).1.pods a = some ta →
      ta.ctx.done (ta.stop (ticks [[app1, app2]] fresh).2).cancelled = true ∧
      (ticks [[app1, app2]] fresh).1.ctx.done
          (ta.stop (ticks [[app1, app2]] fresh).2).cancelled =
        (ticks [[app1, app2]] fresh).1.ctx.done (ticks [[app1, app2]] fresh).2.cancelled ∧
      ∀ b tb, mapGet (ticks [[app1, app2]] fresh).1.pods b = some tb → b ≠ a →
        tb.ctx.done (ta.stop (ticks [[app1, app2]] fresh).2).cancelled =
          tb.ctx.done (ticks [[app1, app2]] fresh).2.cancelled) :=
  have hr : Reachable (ticks [[app1, app2]] fresh).1 (ticks [[app1, app2]] fresh).2 :=
    Reachable.tick (Except.ok [app1, app2]) fresh.1 fresh.2
      (Reachable.new [] (Except.ok ()) fresh.1 fresh.2 rfl)
  ⟨hr, scopes_of_tracked_pods _ _ hr⟩

/-! ## Theorems: the cursor of the assigner -/

theorem newLogColorPrint_off : newLogColorPrint "off" = Except.ok offAssigner := by
  rfl

theorem newLogColorPrint_ok_cases (mode : String) (l : logColorPrint)
    (hl : newLogColorPrint mode = Except.ok l) :
    (mode = "off" ∧ l = offAssigner) ∨
    (mode ≠ "off" ∧
      (l = { colorFuncs := colors.map colorFunc.line, currentColor := 0,
             mode := logColorLine } ∨
       l = { colorFuncs := colors.map colorFunc.pod, currentColor := 0,
             mode := logColorPod })) := by
  by_cases h1 : mode = "off"
  · subst h1
    rw [newLogColorPrint_off] at hl
    exact Or.inl ⟨rfl, (Except.ok.inj hl).symm⟩
  · right
    refine ⟨h1, ?_⟩
    by_cases h2 : mode = "pod"
    · subst h2
      rw [newLogColorPrint_pod] at hl
      exact Or.inr (Except.ok.inj hl).symm
    · by_cases h3 : mode = "line"
      · subst h3
        rw [newLogColorPrint_line] at hl
        exact Or.inl (Except.ok.inj hl).symm
      · by_cases h4 : mode = ""
        · subst h4
          rw [newLogColorPrint_empty, newLogColorPrint_line] at hl
          exact Or.inl (Except.ok.inj hl).symm
        · have herr := (newLogColorPrint_modes mode).2 (by simp [h1, h2, h3, h4])
          rw [herr] at hl
          simp at hl

theorem succ_cursor (c P : Nat) (hP : 0 < P) :
    (if c % P + 1 ≥ P then 0 else c % P + 1) = (c + 1) % P := by
  have hlt : c % P < P := Nat.mod_lt _ hP
  rw [← Nat.mod_add_mod c P 1]
  split
  · have : c % P + 1 = P := by omega
    rw [this, Nat.mod_self]
  · rw [Nat.mod_eq_of_lt (show c % P + 1 < P by omega)]

theorem afterCalls_cursor (l : logColorPrint) (hP : 0 < l.colorFuncs.length)
    (h0 : l.currentColor = 0) (n : Nat) :
    (afterCalls l n).currentColor = n % l.colorFuncs.length := by
  induction n with
  | zero => simp [afterCalls, h0]
  | succ n ih =>
    simp only [afterCalls, getColor, ih, afterCalls_colorFuncs]
    exact succ_cursor n _ hP

theorem nthColor_index (l : logColorPrint) (hP : 0 < l.colorFuncs.length)
    (h0 : l.currentColor = 0) (n : Nat) (hn : 1 ≤ n) :
    nthColor l n = l.colorFuncs[n % l.colorFuncs.length]? := by
  have hc := afterCalls_cursor l hP h0 (n - 1)
  simp only [nthColor, getColor, hc, afterCalls_colorFuncs]
  rw [succ_cursor (n - 1) _ hP, Nat.sub_add_cancel hn]

/-- C11: for every assigner `newLogColorPrint` builds, whatever the accepted
mode, the palette is not empty and never changes, the cursor stays below the
size of the palette after any number of calls of `getColor`, and for every
`n ≥ 1` the `n`-th call indexes inside the palette, at the cursor `n mod
len(palette)`, and returns the entry there. The first call returns entry 1,
which differs from entry 0, when the palette has more than one entry; in mode
"off" the palette has one entry and every call returns entry 0. -/
theorem getColor_cursor_in_palette (mode : String) (l : logColorPrint)
    (hl : newLogColorPrint mode = Except.ok l) (n : Nat) (hn : 1 ≤ n) :
    l.colorFuncs ≠ [] ∧
    (∀ m, (afterCalls l m).colorFuncs = l.colorFuncs ∧
      (afterCalls l m).currentColor < l.colorFuncs.length) ∧
    (afterCalls l n).currentColor = n % l.colorFuncs.length ∧
    nthColor l n = l.colorFuncs[n % l.colorFuncs.length]? ∧
    (nthColor l n).isSome = true ∧
    (1 < l.colorFuncs.length →
      nthColor l 1 = l.colorFuncs[1]? ∧ nthColor l 1 ≠ l.colorFuncs[0]?) ∧
    (mode = "off" → l.colorFuncs.length = 1 ∧ nthColor l n = l.colorFuncs[0]?) := by
  have hfacts : 0 < l.colorFuncs.length ∧ l.currentColor = 0 ∧ l.colorFuncs.Nodup ∧
      (mode = "off" → l.colorFuncs.length = 1) := by
    rcases newLogColorPrint_ok_cases mode l hl with ⟨_, h⟩ | ⟨hne, h | h⟩
    · subst h
      exact ⟨by decide, rfl, by decide, fun _ => rfl⟩
    · subst h
      exact ⟨by decide, rfl, by decide, fun h => absurd h hne⟩
    · subst h
      exact ⟨by decide, rfl, by decide, fun h => absurd h hne⟩
  obtain ⟨hP, h0, hnd, hoff⟩ := hfacts
  have hidx : n % l.colorFuncs.length < l.colorFuncs.length := Nat.mod_lt _ hP
  refine ⟨List.ne_nil_of_length_pos hP, ?_, afterCalls_cursor l hP h0 n,
    nthColor_index l hP h0 n hn, ?_, ?_, ?_⟩
  · intro m
    refine ⟨afterCalls_colorFuncs l m, ?_⟩
    rw [afterCalls_cursor l hP h0 m]
    exact Nat.mod_lt _ hP
  · rw [nthColor_index l hP h0 n hn, List.getElem?_eq_getElem hidx]
    rfl
  · intro h1
    have hfirst : nthColor l 1 = l.colorFuncs[1]? := by
      rw [nthColor_index l hP h0 1 (Nat.le_refl 1), Nat.mod_eq_of_lt h1]
    refine ⟨hfirst, ?_⟩
    rw [hfirst, List.getElem?_eq_getElem h1, List.getElem?_eq_getElem hP]
    intro heq
    have := (List.Nodup.getElem_inj_iff hnd).1 (Option.some.inj heq)
    omega
  · intro hm
    have h1 := hoff hm
    refine ⟨h1, ?_⟩
    rw [nthColor_index l hP h0 n hn, h1, Nat.mod_one]

/-- The cursor theorem at mode "pod" and the first call, and at mode "off" and
the third call. -/
theorem getColor_cursor_in_palette_witness :
    newLogColorPrint "pod" = Except.ok fresh.1.color ∧
    1 ≤ 1 ∧
    (afterCalls fresh.1.color 1).currentColor = 1 % fresh.1.color.colorFuncs.length ∧
    nthColor fresh.1.color 1 = fresh.1.color.colorFuncs[1]? ∧
    nthColor fresh.1.color 1 ≠ fresh.1.color.colorFuncs[0]? ∧
    newLogColorPrint "off" = Except.ok offAssigner ∧
    1 ≤ 3 ∧
    offAssigner.colorFuncs.length = 1 ∧
    nthColor offAssigner 3 = offAssigner.colorFuncs[0]? :=
  ⟨rfl, Nat.le_refl 1,
   (getColor_cursor_in_palette "pod" fresh.1.color rfl 1 (Nat.le_refl 1)).2.2.1,
   ((getColor_cursor_in_palette "pod" fresh.1.color rfl 1 (Nat.le_refl 1)).2.2.2.2.2.1
     (by decide)).1,
   ((getColor_cursor_in_palette "pod" fresh.1.color rfl 1 (Nat.le_refl 1)).2.2.2.2.2.1
     (by decide)).2,
   rfl, by decide,
   ((getColor_cursor_in_palette "off" offAssigner rfl 3 (by decide)).2.2.2.2.2.2 rfl).1,
   ((getColor_cursor_in_palette "off" offAssigner rfl 3 (by decide)).2.2.2.2.2.2 rfl).2⟩

end Kubelogtail
